import Mathlib

/-!
Verification of the `BucketingSampler` subsystem of lhotse
(`lhotse/dataset/sampling/bucketing.py`).

The Python source is shallowly embedded:

* a `Cut` is a record of an identity and a duration; identities are opaque
  strings in the source and are modelled as naturals; durations are Python
  floats and are modelled as exact fractions (`Frac`: an integer numerator
  and denominator, kept unnormalized so that every operation is a plain
  integer computation; every concrete input evaluated in this file uses
  durations on which float and exact arithmetic take the same branches);
* a `CutSet` is an ordered collection of cuts, modelled as a list;
* fallible code (AssertionError, IndexError, ZeroDivisionError,
  uncaught TypeError) returns `Option`/a dedicated error constructor;
* the private random generator `random.Random(seed)` is modelled as a pure
  draw source: a pair of functions from (seed, draw position) to the drawn
  value, one for `choice` (a natural, used modulo the sequence length, so
  any index is reachable) and one for `random()` (a rational in `[0,1)`).
  The mutable generator state is the pair (seed, position); `seed(s)`
  resets it to `(s, 0)`.  This captures exactly what the claims need:
  draws are a deterministic function of the seed and of how many draws
  happened since seeding;
* the sub-samplers (`SingleCutSampler` instances, whose class is not part
  of the sources) are modelled from the spec as streams of ready batches
  with a cursor, plus the `Optional` statistics the bucketing sampler
  reads from them.
-/

set_option autoImplicit false

namespace LhotseBucketing

/-- An exact fraction, standing in for Python float arithmetic on
durations.  The denominator is positive for every value constructed in
this development (durations are nonnegative literals and the divisors are
positive), so the comparisons below order values exactly like the floats
they stand for.  The representation is unnormalized: all operations are
plain integer arithmetic. -/
structure Frac where
  num : ℤ
  den : ℤ
deriving Repr, DecidableEq

namespace Frac

/-- The fraction `n / 1`. -/
def ofNat (n : ℕ) : Frac := ⟨n, 1⟩

/-- The zero of the duration arithmetic. -/
protected def zero : Frac := ⟨0, 1⟩

/-- Addition: `a/b + c/d = (a*d + c*b) / (b*d)`. -/
protected def add (a b : Frac) : Frac :=
  ⟨a.num * b.den + b.num * a.den, a.den * b.den⟩

/-- Division: `(a/b) / (c/d) = (a*d) / (b*c)`. -/
protected def div (a b : Frac) : Frac :=
  ⟨a.num * b.den, a.den * b.num⟩

/-- Strict comparison `a < b`, by cross multiplication (exact for
positive denominators, like the float comparison it models). -/
def blt (a b : Frac) : Bool :=
  decide (a.num * b.den < b.num * a.den)

/-- Comparison `a ≤ b`, by cross multiplication. -/
def ble (a b : Frac) : Bool :=
  decide (a.num * b.den ≤ b.num * a.den)

/-- Whether the value equals zero (Python `x == 0.0`; for a denominator
that is nonzero this is exactly `num = 0`). -/
def isZero (a : Frac) : Bool :=
  a.num == 0

instance : Add Frac := ⟨Frac.add⟩

instance : Zero Frac := ⟨Frac.zero⟩

end Frac

/-- A cut: the sampler only needs its identity and duration
(`spec.md` section 3).  Ids are opaque; we use naturals. -/
structure Cut where
  id : ℕ
  duration : Frac
deriving Repr, DecidableEq

/-- Insert a cut into a duration-sorted list, before the first cut of
strictly larger duration (so the resulting sort is stable, like Python's
`sorted`). -/
def insertByDur (c : Cut) : List Cut → List Cut
  | [] => [c]
  | d :: ds =>
    if Frac.blt d.duration c.duration then d :: insertByDur c ds else c :: d :: ds

/-- Modelled from the spec: `CutSet.sort_by_duration(ascending=True)` is not
in the sources; the spec (sections 2 and 4.1) describes it as a stable sort
of the collection by ascending duration. -/
def sortByDuration (cuts : List Cut) : List Cut :=
  cuts.foldr insertByDur []

/-- Modelled from the spec: `CutSet.subset(cut_ids=...)` is not in the
sources; the spec describes it as subset-by-id-list, and the source comment
(bucketing.py line 319) states the output has the same order as the given
id sequence. -/
def subsetByIds (cuts : List Cut) (ids : List ℕ) : List Cut :=
  ids.filterMap fun i => cuts.find? fun c => c.id == i

/-- Modelled from the spec: `CutSet.sort_like(other)` is not in the
sources; the spec describes it as reordering a collection to match
another collection's id order. -/
def sortLike (cuts : List Cut) (other : List Cut) : List Cut :=
  subsetByIds cuts (other.map Cut.id)

/-- Modelled from the spec: the chunk sizes of `CutSet.split(n)`, which is
not in the sources; the spec (section 4.1) requires contiguous groups with
element counts differing by at most one.  The first `len % n` chunks get
the extra element. -/
def splitSizes (len n : ℕ) : List ℕ :=
  (List.range n).map fun i => if i < len % n then len / n + 1 else len / n

/-- Cut a list into contiguous chunks of the given sizes. -/
def takeChunks : List ℕ → List Cut → List (List Cut)
  | [], _ => []
  | k :: ks, l => l.take k :: takeChunks ks (l.drop k)

/-- Modelled from the spec: `CutSet.split(n)`, splitting a collection into
`n` contiguous parts of as-equal-as-possible size. -/
def splitN (l : List Cut) (n : ℕ) : List (List Cut) :=
  takeChunks (splitSizes l.length n) l

/-- Worker for `pyZip`: walk down the first row, pairing each of its
elements with the heads of the other rows, stopping as soon as any row is
exhausted. -/
def pyZipGo {α : Type} : List α → List (List α) → List (List α)
  | [], _ => []
  | a :: t, ls =>
    match ls.mapM List.head? with
    | none => []
    | some heads => (a :: heads) :: pyZipGo t (ls.map List.tail)

/-- Python's `zip(*rows)`: transpose a list of rows, truncating at the
shortest row (`list(zip(*buckets))` in both bucket builders). -/
def pyZip {α : Type} : List (List α) → List (List α)
  | [] => []
  | l :: ls => pyZipGo l ls

/-- Embeds `create_buckets_equal_len` (bucketing.py lines 277-297): sort the
first collection by duration, split it into `num_buckets` parts, and split
every further collection after reordering it like the first; finally
transpose. -/
def create_buckets_equal_len (first : List Cut) (rest : List (List Cut))
    (numBuckets : ℕ) : List (List (List Cut)) :=
  let firstSorted := sortByDuration first
  pyZip (splitN firstSorted numBuckets ::
    rest.map fun cs => splitN (sortLike cs firstSorted) numBuckets)

/-- One round of the inner `while current_duration < bucket_duration` loop
of `_create_buckets_equal_duration_single` (bucketing.py lines 345-347).
Returns the filled bucket, the remaining stream, and whether the stream
raised `StopIteration` while filling.  (Structured by cases on the stream;
when the stream is empty the loop either raises `StopIteration` on its
next `next()` call — when the target is not yet reached — or exits
normally with the empty remainder.) -/
def fillOne (bd : Frac) : List Cut → List Cut → Frac → List Cut × List Cut × Bool
  | [], bucket, cur =>
    if Frac.blt cur bd then (bucket, [], true) else (bucket, [], false)
  | c :: rest, bucket, cur =>
    if Frac.blt cur bd then fillOne bd rest (bucket ++ [c]) (cur.add c.duration)
    else (bucket, c :: rest, false)

/-- The `for bucket_idx in range(num_buckets)` loop of
`_create_buckets_equal_duration_single` (bucketing.py lines 341-357),
driven by the number of remaining iterations (initially `num_buckets`,
with `bucketIdx` starting at 0):

* fill the current bucket until its duration reaches `bd`;
* on every odd bucket pop the last appended cut and prepend it to the
  remaining stream (Python raises `IndexError` if the bucket is empty,
  modelled as `none`);
* a `StopIteration` while filling must happen at the last bucket index
  (the `assert bucket_idx == num_buckets - 1`); otherwise the call raises
  `AssertionError`, modelled as `none`;
* cuts still left in the stream after the last bucket are not consumed. -/
def fillLoop (bd : Frac) (numBuckets : ℕ) : ℕ → ℕ → List Cut → Option (List (List Cut))
  | 0, _, _ => some []
  | n + 1, bucketIdx, stream =>
    match fillOne bd stream [] Frac.zero with
    | (bucket, _, true) =>
      if bucketIdx = numBuckets - 1 then some [bucket] else none
    | (bucket, rest, false) =>
      if bucketIdx % 2 = 1 then
        match bucket.getLast? with
        | none => none
        | some lastCut =>
          (fillLoop bd numBuckets n (bucketIdx + 1) (lastCut :: rest)).map
            fun bs => bucket.dropLast :: bs
      else
        (fillLoop bd numBuckets n (bucketIdx + 1) rest).map fun bs => bucket :: bs

/-- Embeds `_create_buckets_equal_duration_single` (bucketing.py lines
328-358): the total duration is the running float sum of the durations,
the per-bucket target is `total / num_buckets`, and the fill loop runs
`num_buckets` times from bucket index 0.  With `num_buckets = 0` Python
raises `ZeroDivisionError` when computing the target, modelled as
`none`. -/
def create_buckets_equal_duration_single (cuts : List Cut) (numBuckets : ℕ) :
    Option (List (List Cut)) :=
  if numBuckets = 0 then none
  else
    fillLoop (((cuts.map Cut.duration).foldl Frac.add Frac.zero).div
      (Frac.ofNat numBuckets)) numBuckets numBuckets 0 cuts

/-- Embeds `create_buckets_equal_duration` (bucketing.py lines 300-325).
The Python builds, for each additional collection, a *generator
expression* over `buckets_per_cutset[0]` whose body reads the loop
variable `cut_set`; the generators are only consumed by
`list(zip(*buckets_per_cutset))`, after the loop has finished, when
`cut_set` is bound to the LAST additional collection.  The embedding
reproduces that late binding: every additional component subsets
`rest.getLast?`. -/
def create_buckets_equal_duration (first : List Cut) (rest : List (List Cut))
    (numBuckets : ℕ) : Option (List (List (List Cut))) :=
  match create_buckets_equal_duration_single (sortByDuration first) numBuckets with
  | none => none
  | some firstBuckets =>
    let others := rest.map fun _ =>
      match rest.getLast? with
      | none => []
      | some lastCs => firstBuckets.map fun bucket => subsetByIds lastCs (bucket.map Cut.id)
    some (pyZip (firstBuckets :: others))

/-- The multiset of ids appearing across all components of all buckets
returned by a bucket builder. -/
def outputIds (bks : List (List (List Cut))) : List ℕ :=
  (bks.map fun t => (t.map (List.map Cut.id)).flatten).flatten

/-- Modelled from the spec: a per-bucket sub-sampler (`SingleCutSampler`
instances; their class is not in the sources).  The spec (sections 2 and 6)
describes it as a pull-based producer of batches of cut ids with a cursor
reset by `iter`, plus `Optional` statistics `remaining_duration`,
`remaining_cuts` and `num_cuts` (`None` for lazy sources).  `batches` is the
stream of batches the sampler would yield in order; `pos` the cursor; the
two statistics that shrink as data is consumed are functions of the
cursor. -/
structure SubSampler where
  batches : List (List ℕ)
  remDurAt : ℕ → Option Frac
  remCutsAt : ℕ → Option ℕ
  numCuts : Option ℕ
  pos : ℕ

/-- Modelled from the spec: `next(sampler)` on a sub-sampler either yields
the next batch or raises `StopIteration` (modelled as `none`). -/
def subNext (b : SubSampler) : Option (List ℕ × SubSampler) :=
  match b.batches[b.pos]? with
  | none => none
  | some batch => some (batch, { b with pos := b.pos + 1 })

/-- Modelled from the spec: `iter(sampler)` resets a sub-sampler's internal
cursor (spec section 4.3). -/
def subReset (b : SubSampler) : SubSampler :=
  { b with pos := 0 }

/-- Modelled from the spec: `len(sampler)` for a sub-sampler is its batch
count (spec section 4.4: "sum of each sub-sampler's batch count"). -/
def subLen (b : SubSampler) : ℕ :=
  b.batches.length

/-- Modelled from the spec: `sampler.filter(predicate)` on a sub-sampler
excludes the cuts failing the predicate from the batches it will yield;
a batch left empty is not yielded. -/
def subFilter (p : ℕ → Bool) (b : SubSampler) : SubSampler :=
  { b with batches := ((b.batches.map fun batch => batch.filter p).filter
      fun batch => !batch.isEmpty) }

/-- The private random generator `random.Random` as a pure draw source:
`choiceDraw s i` is the natural drawn by the i-th draw after seeding with
`s` when the draw is a `choice` (used modulo the sequence length), and
`uniformDraw s i` the rational in `[0,1)` drawn when it is `random()`. -/
structure RngModel where
  choiceDraw : ℤ → ℕ → ℕ
  uniformDraw : ℤ → ℕ → Frac

/-- The state of a `BucketingSampler` (bucketing.py lines 49-126): the
configuration fixed at construction (`num_buckets`,
`proportional_sampling`, whether the first cut set is lazy, `seed`, the
current `epoch`) and the mutable iteration state (the generator state
`bucket_rng`, the per-bucket sub-samplers, the `depleted` flags).  The
cached `num_batches` of `__len__` lives on the object too but is read and
written only by `__len__`/`filter`; it is threaded separately through
those operations. -/
structure BucketingSampler where
  numBuckets : ℕ
  proportional : Bool
  firstLazy : Bool
  seed : ℤ
  epoch : ℤ
  rngSeed : ℤ
  rngPos : ℕ
  samplers : List SubSampler
  depleted : List Bool

/-- Embeds `_nondepleted_samplers_with_idxs` (bucketing.py lines 259-267):
the `(index, sampler)` pairs whose `depleted` flag is false. -/
def nondepletedWithIdxs (s : BucketingSampler) : List (ℕ × SubSampler) :=
  (s.samplers.zip s.depleted).enum.filterMap
    fun p => if p.2.2 then none else some (p.1, p.2.1)

/-- Embeds the `is_depleted` property (bucketing.py lines 255-257). -/
def isDepleted (s : BucketingSampler) : Bool :=
  s.depleted.all id

/-- Embeds `_select_bucket_with_idx` (bucketing.py lines 205-239).
Returns the selected `(index, sampler)` pair together with the generator
state after the call; `none` models an uncaught exception (`IndexError`
from `choice` on an empty sequence, or `TypeError` from arithmetic on a
`None` remaining duration).

* not proportional, or lazy first cut set: one `choice` among the
  non-depleted pairs;
* exactly one non-depleted pair: return it, consuming no draw;
* otherwise: two `choice` draws, then
  `prob1 = rd1 / (rd1 + rd2)`; when `rd1 + rd2 = 0` Python raises
  `ZeroDivisionError` and the handler returns the first candidate without
  drawing further; otherwise one `random()` draw `u`, returning the second
  candidate when `u > prob1` and the first otherwise. -/
def selectBucketWithIdx (R : RngModel) (s : BucketingSampler) :
    Option ((ℕ × SubSampler) × ℤ × ℕ) :=
  let pairs := nondepletedWithIdxs s
  if ¬ s.proportional ∨ s.firstLazy then
    match pairs[R.choiceDraw s.rngSeed s.rngPos % pairs.length]? with
    | none => none
    | some p => some (p, s.rngSeed, s.rngPos + 1)
  else if pairs.length = 1 then
    match pairs[0]? with
    | none => none
    | some p => some (p, s.rngSeed, s.rngPos)
  else
    match pairs[R.choiceDraw s.rngSeed s.rngPos % pairs.length]?,
          pairs[R.choiceDraw s.rngSeed (s.rngPos + 1) % pairs.length]? with
    | some p1, some p2 =>
      match p1.2.remDurAt p1.2.pos, p2.2.remDurAt p2.2.pos with
      | some rd1, some rd2 =>
        if (rd1.add rd2).isZero then some (p1, s.rngSeed, s.rngPos + 2)
        else if Frac.blt (rd1.div (rd1.add rd2)) (R.uniformDraw s.rngSeed (s.rngPos + 2)) then
          some (p2, s.rngSeed, s.rngPos + 3)
        else
          some (p1, s.rngSeed, s.rngPos + 3)
      | _, _ => none
    | _, _ => none

/-- Replace the sub-sampler at index `i` (the effect of `next(sampler)`
advancing the selected sampler in `_next_batch`). -/
def setSampler (s : BucketingSampler) (i : ℕ) (b : SubSampler) : BucketingSampler :=
  { s with samplers := s.samplers.set i b }

/-- Embeds `self.depleted[idx] = True` (bucketing.py line 247). -/
def setDepleted (s : BucketingSampler) (i : ℕ) : BucketingSampler :=
  { s with depleted := s.depleted.set i true }

/-- Store the generator state after a call that drew from `bucket_rng`. -/
def setRng (s : BucketingSampler) (r : ℤ × ℕ) : BucketingSampler :=
  { s with rngSeed := r.1, rngPos := r.2 }

/-- The result of `_next_batch`: a batch, a `StopIteration` for the whole
epoch, or an uncaught exception / exhausted fuel (`err` is never reached
with enough fuel, see the termination theorem). -/
inductive NBResult where
  | batch : List ℕ → NBResult
  | stop : NBResult
  | err : NBResult
deriving Repr, DecidableEq

/-- Embeds the `while not self.is_depleted` loop of `_next_batch`
(bucketing.py lines 241-248), with explicit fuel: select a bucket, pull
from its sampler; on `StopIteration` mark it depleted and retry; when all
buckets are depleted raise `StopIteration` for the epoch. -/
def nextBatchAux (R : RngModel) : ℕ → BucketingSampler → NBResult × BucketingSampler
  | 0, s => (.err, s)
  | fuel + 1, s =>
    if isDepleted s then (.stop, s)
    else
      match selectBucketWithIdx R s with
      | none => (.err, s)
      | some (p, r) =>
        match subNext p.2 with
        | some (b, subNew) => (.batch b, setSampler (setRng s r) p.1 subNew)
        | none => nextBatchAux R fuel (setDepleted (setRng s r) p.1)

/-- The `_next_batch` loop instrumented to record every selected bucket
index, continued across successive `_next_batch` calls of one epoch: a
selection that yields a batch advances the chosen sampler's cursor, a
selection that raises `StopIteration` marks the bucket depleted; the
recorded sequence is the epoch's sequence of selected-bucket indices. -/
def selTraceAux (R : RngModel) : ℕ → BucketingSampler → List ℕ
  | 0, _ => []
  | fuel + 1, s =>
    if isDepleted s then []
    else
      match selectBucketWithIdx R s with
      | none => []
      | some (p, r) =>
        match subNext p.2 with
        | some (_, subNew) => p.1 :: selTraceAux R fuel (setSampler (setRng s r) p.1 subNew)
        | none => p.1 :: selTraceAux R fuel (setDepleted (setRng s r) p.1)

/-- Embeds `__iter__` (bucketing.py lines 198-203): reseed `bucket_rng`
with `seed + epoch`, reset every sub-sampler's cursor, clear all
`depleted` flags. -/
def iterBS (s : BucketingSampler) : BucketingSampler :=
  { s with
    rngSeed := s.seed + s.epoch
    rngPos := 0
    samplers := s.samplers.map subReset
    depleted := List.replicate s.numBuckets false }

/-- Python's `sum` over a stream of `Optional` values inside the
`try/except TypeError` of the aggregate properties: as soon as a `None`
participates, `TypeError` is raised and the property converts it to
`None`; otherwise the sum of the values is returned. -/
def pySum {α : Type} [Add α] [Zero α] : List (Option α) → Option α
  | [] => some 0
  | none :: _ => none
  | some v :: t =>
    match pySum t with
    | some rest => some (v + rest)
    | none => none

/-- Embeds the `remaining_duration` property (bucketing.py lines 128-139):
sum of the non-depleted samplers' remaining durations, `None` if any is
`None`. -/
def remainingDuration (s : BucketingSampler) : Option Frac :=
  pySum ((nondepletedWithIdxs s).map fun p => p.2.remDurAt p.2.pos)

/-- Embeds the `remaining_cuts` property (bucketing.py lines 141-152). -/
def remainingCuts (s : BucketingSampler) : Option ℕ :=
  pySum ((nondepletedWithIdxs s).map fun p => p.2.remCutsAt p.2.pos)

/-- Embeds the `num_cuts` property (bucketing.py lines 154-165): sum over
ALL bucket samplers, depleted or not. -/
def numCutsBS (s : BucketingSampler) : Option ℕ :=
  pySum (s.samplers.map SubSampler.numCuts)

/-- Embeds `__len__` (bucketing.py lines 250-253) together with the cached
`self.num_batches` (initialized to `None` at construction, per the spec:
"computed once and cached"): returns the length and the cache after the
call. -/
def lenBS (s : BucketingSampler) (numBatches : Option ℕ) : ℕ × Option ℕ :=
  match numBatches with
  | some n => (n, some n)
  | none =>
    let n := (s.samplers.map subLen).sum
    (n, some n)

/-- Embeds `filter` (bucketing.py lines 179-196): forward the predicate to
every sub-sampler.  The body touches nothing else; in particular the
cached `num_batches` is passed through unchanged. -/
def filterBS (p : ℕ → Bool) (s : BucketingSampler) (numBatches : Option ℕ) :
    BucketingSampler × Option ℕ :=
  ({ s with samplers := s.samplers.map (subFilter p) }, numBatches)

/-! Concrete instances used by the witness theorems. -/

/-- A draw source whose i-th `choice` draw is `i` and whose `random()`
draws are all `1/2`. -/
def wRng : RngModel :=
  ⟨fun _ p => p, fun _ _ => ⟨1, 2⟩⟩

/-- A sub-sampler with two batches and remaining duration 1. -/
def wSubA : SubSampler :=
  ⟨[[0], [1]], fun _ => some ⟨1, 1⟩, fun _ => some 2, some 2, 0⟩

/-- A sub-sampler with two batches and remaining duration 3. -/
def wSubB : SubSampler :=
  ⟨[[2], [3]], fun _ => some ⟨3, 1⟩, fun _ => some 2, some 2, 0⟩

/-- A sub-sampler with no batches and remaining duration 0. -/
def wSubZ : SubSampler :=
  ⟨[], fun _ => some ⟨0, 1⟩, fun _ => some 0, some 0, 0⟩

/-- A sub-sampler with no batches but a positive claimed remaining
duration. -/
def wSubE : SubSampler :=
  ⟨[], fun _ => some ⟨5, 1⟩, fun _ => some 0, some 0, 0⟩

/-- A sub-sampler whose statistics are all unknown (lazy source). -/
def wSubN : SubSampler :=
  ⟨[], fun _ => none, fun _ => none, none, 0⟩

/-- A two-bucket proportional sampler over `wSubA` and `wSubB`. -/
def wS3 : BucketingSampler :=
  ⟨2, true, false, 0, 0, 0, 0, [wSubA, wSubB], [false, false]⟩

/-- A two-bucket proportional sampler whose buckets both report zero
remaining duration. -/
def wS7 : BucketingSampler :=
  ⟨2, true, false, 0, 0, 0, 0, [wSubZ, wSubZ], [false, false]⟩

/-- A two-bucket sampler with bucket 0 already depleted. -/
def wS4 : BucketingSampler :=
  ⟨2, true, false, 0, 0, 0, 0, [wSubA, wSubB], [true, false]⟩

/-- A two-bucket sampler whose first bucket has no batches left but a
positive claimed remaining duration, so selection will pick it and
discover it depleted. -/
def wS4b : BucketingSampler :=
  ⟨2, true, false, 0, 0, 0, 0, [wSubE, wSubA], [false, false]⟩

/-- A copy of `wS3` with different mutable state (generator state,
sub-sampler cursors, depletion flags). -/
def wS5b : BucketingSampler :=
  ⟨2, true, false, 0, 0, 99, 7, [{ wSubA with pos := 1 }, wSubB], [true, true]⟩

/-- A one-bucket sampler over a lazy-statistics sub-sampler. -/
def wS9 : BucketingSampler :=
  ⟨1, true, false, 0, 0, 0, 0, [wSubN], [false]⟩

/-- A one-bucket sampler with a single one-batch sub-sampler, used to
exercise the `__len__` cache. -/
def c8s : BucketingSampler :=
  ⟨1, true, false, 0, 0, 0, 0, [⟨[[0]], fun _ => some ⟨1, 1⟩, fun _ => some 1, some 1, 0⟩], [false]⟩

/-- A non-proportional two-bucket sampler whose sub-samplers report no
statistics at all (as for lazy data). -/
def wS10n : BucketingSampler :=
  ⟨2, false, false, 0, 0, 0, 0, [wSubN, wSubN], [false, false]⟩

/-! Helper lemmas about the sampler state machine. -/

/-- Membership in `_nondepleted_samplers_with_idxs` is exactly: the index
carries this sampler and its depleted flag is false. -/
lemma mem_nondepleted {s : BucketingSampler} {i : ℕ} {b : SubSampler} :
    (i, b) ∈ nondepletedWithIdxs s ↔
      s.samplers[i]? = some b ∧ s.depleted[i]? = some false := by
  unfold nondepletedWithIdxs
  rw [List.mem_filterMap]
  constructor
  · rintro ⟨⟨j, bs, d⟩, hmem, hf⟩
    cases d with
    | true => simp at hf
    | false =>
      simp only [Bool.false_eq_true, if_false, Option.some.injEq, Prod.mk.injEq] at hf
      obtain ⟨rfl, rfl⟩ := hf
      have hz := List.mk_mem_enum_iff_getElem?.mp hmem
      exact List.getElem?_zip_eq_some.mp hz
  · rintro ⟨h1, h2⟩
    refine ⟨(i, b, false), ?_, rfl⟩
    exact List.mk_mem_enum_iff_getElem?.mpr
      (List.getElem?_zip_eq_some.mpr ⟨h1, h2⟩)

/-- Whatever `_select_bucket_with_idx` returns is one of the non-depleted
pairs. -/
lemma select_mem {R : RngModel} {s : BucketingSampler} {p : ℕ × SubSampler}
    {r : ℤ × ℕ} (h : selectBucketWithIdx R s = some (p, r)) :
    p ∈ nondepletedWithIdxs s := by
  simp only [selectBucketWithIdx] at h
  split at h
  · split at h
    · exact absurd h (by simp)
    · rename_i heq
      have hp : p = _ := (congrArg Prod.fst (Option.some.inj h)).symm
      subst hp
      exact List.mem_iff_getElem?.mpr ⟨_, heq⟩
  · split at h
    · split at h
      · exact absurd h (by simp)
      · rename_i heq
        have hp : p = _ := (congrArg Prod.fst (Option.some.inj h)).symm
        subst hp
        exact List.mem_iff_getElem?.mpr ⟨_, heq⟩
    · split at h
      · rename_i p1 p2 heq1 heq2
        split at h
        · rename_i rd1 rd2 hrd1 hrd2
          split at h
          · have hp : p = p1 := (congrArg Prod.fst (Option.some.inj h)).symm
            subst hp
            exact List.mem_iff_getElem?.mpr ⟨_, heq1⟩
          · split at h
            · have hp : p = p2 := (congrArg Prod.fst (Option.some.inj h)).symm
              subst hp
              exact List.mem_iff_getElem?.mpr ⟨_, heq2⟩
            · have hp : p = p1 := (congrArg Prod.fst (Option.some.inj h)).symm
              subst hp
              exact List.mem_iff_getElem?.mpr ⟨_, heq1⟩
        · exact absurd h (by simp)
      · exact absurd h (by simp)

/-- Setting a flag to true cannot turn a true flag false. -/
lemma set_true_keeps {l : List Bool} {i j : ℕ} (h : l[i]? = some true) :
    (l.set j true)[i]? = some true := by
  by_cases hj : j = i
  · subst hj
    have hlt : j < l.length := (List.getElem?_eq_some_iff.mp h).1
    exact List.getElem?_set_eq_of_lt true hlt
  · rw [List.getElem?_set_ne hj]
    exact h

/-- Step equation: with every bucket depleted, `_next_batch` raises
`StopIteration`. -/
lemma nextBatchAux_depleted (R : RngModel) (n : ℕ) (s : BucketingSampler)
    (h : isDepleted s = true) : nextBatchAux R (n + 1) s = (.stop, s) := by
  unfold nextBatchAux
  rw [if_pos h]

/-- Step equation: a failing bucket selection surfaces as an error. -/
lemma nextBatchAux_selNone (R : RngModel) (n : ℕ) (s : BucketingSampler)
    (hdep : ¬ isDepleted s = true) (hsel : selectBucketWithIdx R s = none) :
    nextBatchAux R (n + 1) s = (.err, s) := by
  unfold nextBatchAux
  rw [if_neg hdep, hsel]

/-- Step equation: a selected sampler that yields a batch ends the call,
advancing that sampler's cursor. -/
lemma nextBatchAux_yield (R : RngModel) (n : ℕ) (s : BucketingSampler)
    (p : ℕ × SubSampler) (r : ℤ × ℕ) (b : List ℕ) (subNew : SubSampler)
    (hdep : ¬ isDepleted s = true) (hsel : selectBucketWithIdx R s = some (p, r))
    (hnx : subNext p.2 = some (b, subNew)) :
    nextBatchAux R (n + 1) s = (.batch b, setSampler (setRng s r) p.1 subNew) := by
  unfold nextBatchAux
  rw [if_neg hdep]
  split
  · rename_i heq
    rw [hsel] at heq
    exact absurd heq (by simp)
  · rename_i p2 r2 heq
    rw [hsel] at heq
    obtain ⟨h1, h2⟩ : p = p2 ∧ r = r2 := by
      have := Option.some.inj heq
      exact ⟨congrArg Prod.fst this, congrArg Prod.snd this⟩
    rw [← h1, ← h2, hnx]

/-- Step equation: a selected sampler that raises `StopIteration` marks
its bucket depleted and the loop retries. -/
lemma nextBatchAux_stopIter (R : RngModel) (n : ℕ) (s : BucketingSampler)
    (p : ℕ × SubSampler) (r : ℤ × ℕ)
    (hdep : ¬ isDepleted s = true) (hsel : selectBucketWithIdx R s = some (p, r))
    (hnx : subNext p.2 = none) :
    nextBatchAux R (n + 1) s = nextBatchAux R n (setDepleted (setRng s r) p.1) := by
  conv_lhs => unfold nextBatchAux
  rw [if_neg hdep]
  split
  · rename_i heq
    rw [hsel] at heq
    exact absurd heq (by simp)
  · rename_i p2 r2 heq
    rw [hsel] at heq
    obtain ⟨h1, h2⟩ : p = p2 ∧ r = r2 := by
      have := Option.some.inj heq
      exact ⟨congrArg Prod.fst this, congrArg Prod.snd this⟩
    rw [← h1, ← h2, hnx]

/-- During one `_next_batch` call, `depleted` flags never go back from
true to false. -/
lemma depleted_mono (R : RngModel) :
    ∀ fuel (s : BucketingSampler) (i : ℕ), s.depleted[i]? = some true →
      ((nextBatchAux R fuel s).2).depleted[i]? = some true := by
  intro fuel
  induction fuel with
  | zero => intro s i h; exact h
  | succ n ih =>
    intro s i h
    by_cases hdep : isDepleted s = true
    · rw [nextBatchAux_depleted R n s hdep]
      exact h
    · rcases hsel : selectBucketWithIdx R s with _ | ⟨p, r⟩
      · rw [nextBatchAux_selNone R n s hdep hsel]
        exact h
      · rcases hnx : subNext p.2 with _ | ⟨b, subNew⟩
        · rw [nextBatchAux_stopIter R n s p r hdep hsel hnx]
          exact ih _ _ (by simpa [setDepleted, setRng] using set_true_keeps h)
        · rw [nextBatchAux_yield R n s p r b subNew hdep hsel hnx]
          simpa [setSampler, setRng] using h

/-- A sub-sampler whose bucket is already depleted is not touched by the
rest of the `_next_batch` call. -/
lemma samplers_stable (R : RngModel) :
    ∀ fuel (s : BucketingSampler) (i : ℕ), s.depleted[i]? = some true →
      ((nextBatchAux R fuel s).2).samplers[i]? = s.samplers[i]? := by
  intro fuel
  induction fuel with
  | zero => intro s i h; rfl
  | succ n ih =>
    intro s i h
    by_cases hdep : isDepleted s = true
    · rw [nextBatchAux_depleted R n s hdep]
    · rcases hsel : selectBucketWithIdx R s with _ | ⟨p, r⟩
      · rw [nextBatchAux_selNone R n s hdep hsel]
      · rcases hnx : subNext p.2 with _ | ⟨b, subNew⟩
        · rw [nextBatchAux_stopIter R n s p r hdep hsel hnx]
          have hkeep : (setDepleted (setRng s r) p.1).depleted[i]? = some true := by
            simpa [setDepleted, setRng] using set_true_keeps h
          rw [ih _ _ hkeep]
          rfl
        · rw [nextBatchAux_yield R n s p r b subNew hdep hsel hnx]
          have hflag := (mem_nondepleted.mp (select_mem hsel)).2
          have hne : p.1 ≠ i := by
            intro hh
            subst hh
            rw [h] at hflag
            simp at hflag
          simp [setSampler, setRng, List.getElem?_set_ne hne]

/-- A flag that flips during `_next_batch` flips exactly because that
bucket's sub-sampler raised `StopIteration`: in the resulting state the
bucket's sampler is exhausted. -/
lemma depleted_flip_exhausted (R : RngModel) :
    ∀ fuel (s : BucketingSampler) (i : ℕ),
      s.depleted[i]? = some false →
      ((nextBatchAux R fuel s).2).depleted[i]? = some true →
      ∃ b, ((nextBatchAux R fuel s).2).samplers[i]? = some b ∧
        b.batches[b.pos]? = none := by
  intro fuel
  induction fuel with
  | zero =>
    intro s i h0 h1
    rw [show (nextBatchAux R 0 s).2 = s from rfl, h0] at h1
    simp at h1
  | succ n ih =>
    intro s i h0 h1
    by_cases hdep : isDepleted s = true
    · rw [nextBatchAux_depleted R n s hdep] at h1
      rw [h0] at h1
      simp at h1
    · rcases hsel : selectBucketWithIdx R s with _ | ⟨p, r⟩
      · rw [nextBatchAux_selNone R n s hdep hsel] at h1
        rw [h0] at h1
        simp at h1
      · rcases hnx : subNext p.2 with _ | ⟨b, subNew⟩
        · rw [nextBatchAux_stopIter R n s p r hdep hsel hnx] at h1 ⊢
          by_cases hpi : p.1 = i
          · subst hpi
            have hlt : p.1 < s.depleted.length := (List.getElem?_eq_some_iff.mp h0).1
            have hflag : (setDepleted (setRng s r) p.1).depleted[p.1]? = some true := by
              show (s.depleted.set p.1 true)[p.1]? = some true
              exact List.getElem?_set_eq_of_lt true hlt
            rw [samplers_stable R n _ p.1 hflag]
            have hsome := (mem_nondepleted.mp (select_mem hsel)).1
            refine ⟨p.2, by simpa [setDepleted, setRng] using hsome, ?_⟩
            unfold subNext at hnx
            rcases hb : p.2.batches[p.2.pos]? with _ | bb
            · rfl
            · rw [hb] at hnx
              simp at hnx
          · have h0b : (setDepleted (setRng s r) p.1).depleted[i]? = some false := by
              show (s.depleted.set p.1 true)[i]? = some false
              rw [List.getElem?_set_ne hpi]
              exact h0
            exact ih _ _ h0b h1
        · rw [nextBatchAux_yield R n s p r b subNew hdep hsel hnx] at h1
          exfalso
          have hcontra : s.depleted[i]? = some true := by
            simpa [setSampler, setRng] using h1
          rw [h0] at hcontra
          simp at hcontra

/-- Setting a flag that was false to true removes exactly one false from
the count. -/
lemma count_false_set_true {l : List Bool} :
    ∀ {i : ℕ}, l[i]? = some false →
      (l.set i true).count false + 1 = l.count false := by
  induction l with
  | nil => intro i h; simp at h
  | cons a t ih =>
    intro i h
    cases i with
    | zero =>
      have ha : a = false := by simpa using h
      subst ha
      simp [List.count_cons]
    | succ j =>
      have ht : t[j]? = some false := by simpa using h
      have := ih ht
      simp only [List.set_cons_succ, List.count_cons]
      omega

/-- When some bucket is still non-depleted, `_select_bucket_with_idx`
returns a pair rather than raising.  The sub-sampler remaining durations
are only read on the proportional non-lazy branch, so their availability
is only assumed there (with non-proportional sampling or lazy data the
uniform-choice branch never touches them). -/
lemma select_isSome (R : RngModel) (s : BucketingSampler)
    (hwf : s.depleted.length = s.samplers.length)
    (hrd : s.proportional = true → s.firstLazy = false →
      ∀ b ∈ s.samplers, ∀ q, (b.remDurAt q).isSome = true)
    (hnd : ¬ isDepleted s = true) :
    ∃ p r, selectBucketWithIdx R s = some (p, r) := by
  have hpos : 0 < (nondepletedWithIdxs s).length := by
    unfold isDepleted at hnd
    rw [Bool.not_eq_true, List.all_eq_false] at hnd
    obtain ⟨x, hx, hnx⟩ := hnd
    have hxf : x = false := by
      cases x
      · rfl
      · simp at hnx
    subst hxf
    obtain ⟨j, hj⟩ := List.mem_iff_getElem?.mp hx
    have hjlt : j < s.samplers.length := by
      have := (List.getElem?_eq_some_iff.mp hj).1
      omega
    have hmem : (j, s.samplers[j]) ∈ nondepletedWithIdxs s :=
      mem_nondepleted.mpr ⟨List.getElem?_eq_getElem hjlt, hj⟩
    exact List.length_pos.mpr (List.ne_nil_of_mem hmem)
  simp only [selectBucketWithIdx]
  split
  · split
    · rename_i heq
      rw [List.getElem?_eq_getElem (Nat.mod_lt _ hpos)] at heq
      exact absurd heq (by simp)
    · exact ⟨_, _, rfl⟩
  · rename_i hcond
    have hp : s.proportional = true := by
      cases hq : s.proportional
      · exact absurd (Or.inl (by simp [hq])) hcond
      · rfl
    have hl : s.firstLazy = false := by
      cases hq : s.firstLazy
      · rfl
      · exact absurd (Or.inr hq) hcond
    have hremDur : ∀ p ∈ nondepletedWithIdxs s, ∀ q, (p.2.remDurAt q).isSome = true := by
      intro p hp2 q
      have hsome := (mem_nondepleted.mp hp2).1
      exact hrd hp hl _ (List.mem_iff_getElem?.mpr ⟨_, hsome⟩) q
    split
    · split
      · rename_i heq
        rw [List.getElem?_eq_getElem hpos] at heq
        exact absurd heq (by simp)
      · exact ⟨_, _, rfl⟩
    · split
      · rename_i p1 p2 heq1 heq2
        split
        · split
          · exact ⟨_, _, rfl⟩
          · split
            · exact ⟨_, _, rfl⟩
            · exact ⟨_, _, rfl⟩
        · rename_i hfb
          exfalso
          have hm1 : p1 ∈ nondepletedWithIdxs s := List.mem_iff_getElem?.mpr ⟨_, heq1⟩
          have hm2 : p2 ∈ nondepletedWithIdxs s := List.mem_iff_getElem?.mpr ⟨_, heq2⟩
          obtain ⟨rd1, hd1⟩ := Option.isSome_iff_exists.mp (hremDur _ hm1 p1.2.pos)
          obtain ⟨rd2, hd2⟩ := Option.isSome_iff_exists.mp (hremDur _ hm2 p2.2.pos)
          exact hfb rd1 rd2 hd1 hd2
      · rename_i hfb
        exfalso
        have hk1 : R.choiceDraw s.rngSeed s.rngPos % (nondepletedWithIdxs s).length <
            (nondepletedWithIdxs s).length := Nat.mod_lt _ hpos
        have hk2 : R.choiceDraw s.rngSeed (s.rngPos + 1) % (nondepletedWithIdxs s).length <
            (nondepletedWithIdxs s).length := Nat.mod_lt _ hpos
        exact hfb _ _ (List.getElem?_eq_getElem hk1) (List.getElem?_eq_getElem hk2)

/-- Reduction of `_select_bucket_with_idx` in the proportional, non-lazy,
two-candidate case, given the two drawn pairs and their remaining
durations. -/
lemma select_prop_case (R : RngModel) (s : BucketingSampler)
    (p1 p2 : ℕ × SubSampler) (rd1 rd2 : Frac)
    (hp : s.proportional = true) (hl : s.firstLazy = false)
    (hlen : (nondepletedWithIdxs s).length ≠ 1)
    (h1 : (nondepletedWithIdxs s)[R.choiceDraw s.rngSeed s.rngPos %
      (nondepletedWithIdxs s).length]? = some p1)
    (h2 : (nondepletedWithIdxs s)[R.choiceDraw s.rngSeed (s.rngPos + 1) %
      (nondepletedWithIdxs s).length]? = some p2)
    (hd1 : p1.2.remDurAt p1.2.pos = some rd1)
    (hd2 : p2.2.remDurAt p2.2.pos = some rd2) :
    selectBucketWithIdx R s =
      (if (rd1.add rd2).isZero then some (p1, s.rngSeed, s.rngPos + 2)
       else if Frac.blt (rd1.div (rd1.add rd2)) (R.uniformDraw s.rngSeed (s.rngPos + 2)) then
         some (p2, s.rngSeed, s.rngPos + 3)
       else some (p1, s.rngSeed, s.rngPos + 3)) := by
  simp only [selectBucketWithIdx]
  rw [if_neg (by simp [hp, hl]), if_neg hlen]
  split
  · rename_i q1 q2 heq1 heq2
    rw [h1] at heq1
    rw [h2] at heq2
    have hq1 : p1 = q1 := Option.some.inj heq1
    have hq2 : p2 = q2 := Option.some.inj heq2
    subst hq1
    subst hq2
    split
    · rename_i rd1b rd2b heqd1 heqd2
      rw [hd1] at heqd1
      rw [hd2] at heqd2
      have hr1 : rd1 = rd1b := Option.some.inj heqd1
      have hr2 : rd2 = rd2b := Option.some.inj heqd2
      subst hr1
      subst hr2
      rfl
    · rename_i hfb
      exact absurd (hfb rd1 rd2 hd1 hd2) (by simp)
  · rename_i hfb
    exact absurd (hfb p1 p2 h1 h2) (by simp)

/-- Adding a `None` (Python `TypeError`) anywhere in the stream makes the
guarded sum `None`. -/
lemma pySum_of_mem_none {α : Type} [Add α] [Zero α] {l : List (Option α)}
    (h : none ∈ l) : pySum l = none := by
  induction l with
  | nil => simp at h
  | cons a t ih =>
    rcases List.mem_cons.mp h with h0 | h0
    · rw [← h0]
      rfl
    · cases a with
      | none => rfl
      | some v =>
        show (match pySum t with
          | some rest => some (v + rest)
          | none => none) = none
        rw [ih h0]

/-- The guarded sum of a stream of present values is their sum. -/
lemma pySum_map_some {α : Type} [Add α] [Zero α] (vs : List α) :
    pySum (vs.map some) = some vs.sum := by
  induction vs with
  | nil => rfl
  | cons v t ih =>
    show (match pySum (t.map some) with
      | some rest => some (v + rest)
      | none => none) = some (v :: t).sum
    rw [ih]
    rfl

/-- Comparisons by cross multiplication are complementary: `a ≤ b` holds
exactly when `b < a` fails. -/
lemma Frac.ble_eq_not_blt (a b : Frac) : Frac.ble a b = !Frac.blt b a := by
  simp only [Frac.ble, Frac.blt]
  by_cases h : a.num * b.den ≤ b.num * a.den
  · simp [h, not_lt.mpr h]
  · simp [h, not_le.mp h]

/-! The claims. -/

/-- C1: the claim states that in equal-duration bucketing the cut stream
can be exhausted only while the last bucket is built, and that whenever
`num_buckets` exceeds the number of cuts construction still succeeds with
empty later buckets.  The code violates this: with two cuts of durations
1 and 10 and `num_buckets = 3` (which exceeds the number of cuts), bucket
0 consumes the whole stream, the stream is exhausted while bucket 1 of 3
is being built, and the code's own `assert bucket_idx == num_buckets - 1`
fails (an `AssertionError`, modelled as `none`) instead of producing
buckets. -/
theorem C1_equal_duration_assertion_error :
    create_buckets_equal_duration [⟨0, ⟨1, 1⟩⟩, ⟨1, ⟨10, 1⟩⟩] [] 3 = none := by
  decide

/-- C2: the claim states that with two or more parallel collections the
k-th component of each bucket is obtained by subsetting the k-th input
collection.  The code builds the additional components with generator
expressions that read the loop variable after the loop has finished, so
with three collections sharing id 0 (with durations 1, 2 and 3 so the
collections are distinguishable) both additional components of the bucket
are subsets of the THIRD collection: the second component is
`[⟨0, 3⟩]`, not the subset `[⟨0, 2⟩]` of the second collection. -/
theorem C2_parallel_subset_late_binding :
    create_buckets_equal_duration [⟨0, ⟨1, 1⟩⟩] [[⟨0, ⟨2, 1⟩⟩], [⟨0, ⟨3, 1⟩⟩]] 1
      = some [[[⟨0, ⟨1, 1⟩⟩], [⟨0, ⟨3, 1⟩⟩], [⟨0, ⟨3, 1⟩⟩]]] ∧
    subsetByIds [⟨0, ⟨2, 1⟩⟩] [0] = [⟨0, ⟨2, 1⟩⟩] := by
  constructor
  · decide
  · decide

/-- C3: with proportional sampling enabled and a non-lazy first collection,
`_select_bucket_with_idx` with a single non-depleted bucket returns it
without consuming any draw; with at least two non-depleted buckets it
draws two indices (with replacement) from the non-depleted list, computes
`prob1 = rd1 / (rd1 + rd2)` from the candidates' remaining durations, and
when the sum is nonzero draws one uniform value `u`, returning the first
candidate exactly when `u ≤ prob1` and the second otherwise, having
consumed three draws. -/
theorem C3_proportional_two_draw_selection (R : RngModel) (s : BucketingSampler)
    (hp : s.proportional = true) (hl : s.firstLazy = false) :
    ((nondepletedWithIdxs s).length = 1 →
      ∀ p, (nondepletedWithIdxs s)[0]? = some p →
        selectBucketWithIdx R s = some (p, s.rngSeed, s.rngPos))
  ∧ (2 ≤ (nondepletedWithIdxs s).length →
      ∀ (p1 p2 : ℕ × SubSampler) (rd1 rd2 : Frac),
        (nondepletedWithIdxs s)[R.choiceDraw s.rngSeed s.rngPos %
          (nondepletedWithIdxs s).length]? = some p1 →
        (nondepletedWithIdxs s)[R.choiceDraw s.rngSeed (s.rngPos + 1) %
          (nondepletedWithIdxs s).length]? = some p2 →
        p1.2.remDurAt p1.2.pos = some rd1 →
        p2.2.remDurAt p2.2.pos = some rd2 →
        (rd1.add rd2).isZero = false →
        selectBucketWithIdx R s =
          some ((if Frac.ble (R.uniformDraw s.rngSeed (s.rngPos + 2))
              (rd1.div (rd1.add rd2)) then p1 else p2),
            s.rngSeed, s.rngPos + 3)) := by
  constructor
  · intro hlen p hp0
    simp only [selectBucketWithIdx]
    rw [if_neg (by simp [hp, hl]), if_pos hlen, hp0]
  · intro hlen p1 p2 rd1 rd2 h1 h2 hd1 hd2 hsum
    rw [select_prop_case R s p1 p2 rd1 rd2 hp hl (by omega) h1 h2 hd1 hd2]
    rw [if_neg (by simp [hsum])]
    cases hblt : Frac.blt (rd1.div (rd1.add rd2)) (R.uniformDraw s.rngSeed (s.rngPos + 2)) with
    | false => simp [Frac.ble_eq_not_blt, hblt]
    | true => simp [Frac.ble_eq_not_blt, hblt]

/-- Witness for C3: on a concrete two-bucket sampler with remaining
durations 1 and 3 and a uniform draw of 1/2 > 1/4, selection returns the
second candidate having consumed three draws. -/
theorem C3_witness_selection :
    2 ≤ (nondepletedWithIdxs wS3).length ∧
    selectBucketWithIdx wRng wS3 = some ((1, wSubB), 0, 3) := by
  refine ⟨by decide, ?_⟩
  have h := (C3_proportional_two_draw_selection wRng wS3 rfl rfl).2 (by decide)
    (0, wSubA) (1, wSubB) ⟨1, 1⟩ ⟨3, 1⟩ rfl rfl rfl rfl rfl
  rw [h]
  rfl

/-- C4: within an epoch, `depleted` flags change only from false to true
(no true flag ever reverts during `_next_batch`); a flag that flips to
true does so exactly because that bucket's sub-sampler signalled
end-of-data (afterwards the bucket's sampler is exhausted and untouched);
selection only ever returns buckets whose flag is false, so a depleted
bucket is never selected again in the epoch; and restarting iteration
resets every flag to false. -/
theorem C4_depletion_flag_invariants (R : RngModel) :
    (∀ fuel (s : BucketingSampler) (i : ℕ), s.depleted[i]? = some true →
      ((nextBatchAux R fuel s).2).depleted[i]? = some true)
  ∧ (∀ (s : BucketingSampler) (p : ℕ × SubSampler) (r : ℤ × ℕ),
      selectBucketWithIdx R s = some (p, r) → s.depleted[p.1]? = some false)
  ∧ (∀ fuel (s : BucketingSampler) (i : ℕ), s.depleted[i]? = some false →
      ((nextBatchAux R fuel s).2).depleted[i]? = some true →
      ∃ b, ((nextBatchAux R fuel s).2).samplers[i]? = some b ∧
        b.batches[b.pos]? = none)
  ∧ (∀ s : BucketingSampler, (iterBS s).depleted = List.replicate s.numBuckets false) :=
  ⟨depleted_mono R,
   fun _ _ _ h => (mem_nondepleted.mp (select_mem h)).2,
   depleted_flip_exhausted R,
   fun _ => rfl⟩

/-- Witness for C4: on concrete samplers, a true flag survives a
`_next_batch` call; a concrete selection picks a non-depleted index;
a concrete flip leaves an exhausted sampler behind; and a concrete
iteration restart clears the flags. -/
theorem C4_witness_depletion :
    ((nextBatchAux wRng 2 wS4).2).depleted[0]? = some true ∧
    wS3.depleted[(1 : ℕ)]? = some false ∧
    (∃ b, ((nextBatchAux wRng 3 wS4b).2).samplers[0]? = some b ∧
      b.batches[b.pos]? = none) ∧
    (iterBS wS4).depleted = List.replicate 2 false := by
  refine ⟨(C4_depletion_flag_invariants wRng).1 2 wS4 0 rfl, ?_, ?_, ?_⟩
  · exact (C4_depletion_flag_invariants wRng).2.1 wS3 (1, wSubB) (0, 3) rfl
  · exact (C4_depletion_flag_invariants wRng).2.2.1 3 wS4b 0 rfl rfl
  · exact (C4_depletion_flag_invariants wRng).2.2.2 wS4

/-- C5: two iterations of the same bucketing sampler with the same seed
and epoch produce the identical sequence of selected bucket indices:
restarting iteration reseeds the generator with `seed + epoch`, resets
every sub-sampler cursor and clears the depletion flags, so the whole
selection trace is a function of the immutable configuration only —
the two samplers below may differ arbitrarily in generator state,
cursors and flags. -/
theorem C5_epoch_determinism (R : RngModel) (s1 s2 : BucketingSampler) (fuel : ℕ)
    (h1 : s2.numBuckets = s1.numBuckets) (h2 : s2.proportional = s1.proportional)
    (h3 : s2.firstLazy = s1.firstLazy) (h4 : s2.seed = s1.seed)
    (h5 : s2.epoch = s1.epoch)
    (h6 : s2.samplers.map subReset = s1.samplers.map subReset) :
    selTraceAux R fuel (iterBS s1) = selTraceAux R fuel (iterBS s2) := by
  have hiter : iterBS s2 = iterBS s1 := by
    simp only [iterBS]
    rw [h1, h2, h3, h4, h5, h6]
  rw [hiter]

/-- Witness for C5: a sampler and a copy with scrambled mutable state
(different generator seed and position, advanced cursor, all buckets
flagged depleted) produce the same, nonempty, selection trace after the
epoch restart. -/
theorem C5_witness_determinism :
    wS5b.samplers.map subReset = wS3.samplers.map subReset ∧
    selTraceAux wRng 10 (iterBS wS3) = selTraceAux wRng 10 (iterBS wS5b) ∧
    selTraceAux wRng 10 (iterBS wS3) = [1, 1, 1, 0, 0, 0] := by
  refine ⟨rfl, ?_, rfl⟩
  exact C5_epoch_determinism wRng wS3 wS5b 10 rfl rfl rfl rfl rfl rfl

/-- C6: the claim states that both bucket builders partition the input ids
exactly (no duplicates, no omissions), the odd-bucket give-back included.
The equal-duration builder violates this: six unit-duration cuts split
into three buckets lose cut 5 — bucket 1 gives its second cut back, the
last bucket reaches its duration target early, and the final cut is never
consumed, so the buckets cover only ids 0-4. -/
theorem C6_equal_duration_partition_incomplete :
    (create_buckets_equal_duration
        [⟨0, ⟨1, 1⟩⟩, ⟨1, ⟨1, 1⟩⟩, ⟨2, ⟨1, 1⟩⟩, ⟨3, ⟨1, 1⟩⟩, ⟨4, ⟨1, 1⟩⟩, ⟨5, ⟨1, 1⟩⟩]
        [] 3).map outputIds
      = some [0, 1, 2, 3, 4] ∧
    (5 : ℕ) ∈ ([⟨0, ⟨1, 1⟩⟩, ⟨1, ⟨1, 1⟩⟩, ⟨2, ⟨1, 1⟩⟩, ⟨3, ⟨1, 1⟩⟩, ⟨4, ⟨1, 1⟩⟩,
        ⟨5, ⟨1, 1⟩⟩] : List Cut).map Cut.id := by
  constructor
  · decide
  · decide

/-- C7: when both drawn candidates report zero remaining duration, the
`prob1` division raises `ZeroDivisionError` and the handler returns the
first candidate deterministically: the result is a successful selection
(no error), and only the two choice draws were consumed — the uniform
draw at position `rngPos + 2` is left for the next caller. -/
theorem C7_zero_duration_fallback (R : RngModel) (s : BucketingSampler)
    (hp : s.proportional = true) (hl : s.firstLazy = false)
    (hlen : 2 ≤ (nondepletedWithIdxs s).length)
    (p1 p2 : ℕ × SubSampler) (rd1 rd2 : Frac)
    (h1 : (nondepletedWithIdxs s)[R.choiceDraw s.rngSeed s.rngPos %
      (nondepletedWithIdxs s).length]? = some p1)
    (h2 : (nondepletedWithIdxs s)[R.choiceDraw s.rngSeed (s.rngPos + 1) %
      (nondepletedWithIdxs s).length]? = some p2)
    (hd1 : p1.2.remDurAt p1.2.pos = some rd1)
    (hd2 : p2.2.remDurAt p2.2.pos = some rd2)
    (hz1 : rd1.isZero = true) (hz2 : rd2.isZero = true) :
    selectBucketWithIdx R s = some (p1, s.rngSeed, s.rngPos + 2) := by
  rw [select_prop_case R s p1 p2 rd1 rd2 hp hl (by omega) h1 h2 hd1 hd2]
  rw [if_pos]
  simp only [Frac.isZero, beq_iff_eq] at hz1 hz2 ⊢
  simp [Frac.add, hz1, hz2]

/-- Witness for C7: on a concrete sampler whose two buckets both report
zero remaining duration, selection returns the first drawn candidate with
only two draws consumed. -/
theorem C7_witness_fallback :
    selectBucketWithIdx wRng wS7 = some ((0, wSubZ), 0, 2) := by
  exact C7_zero_duration_fallback wRng wS7 rfl rfl (by decide)
    (0, wSubZ) (1, wSubZ) ⟨0, 1⟩ ⟨0, 1⟩ rfl rfl rfl rfl rfl rfl

/-- C8: the claim states that `filter` invalidates any previously cached
total-batch-count so a later length query cannot return a stale value.
The code's `filter` only forwards the predicate to the sub-samplers and
leaves the cached `num_batches` as is: below, the length is cached as 1,
a filter dropping every cut makes the true batch count 0, and the next
length query still returns the stale 1. -/
theorem C8_filter_keeps_stale_len :
    (lenBS c8s none).1 = 1 ∧
    (lenBS (filterBS (fun _ => false) c8s (lenBS c8s none).2).1
           (filterBS (fun _ => false) c8s (lenBS c8s none).2).2).1 = 1 ∧
    (((filterBS (fun _ => false) c8s (lenBS c8s none).2).1).samplers.map subLen).sum
      = 0 := by
  exact ⟨rfl, rfl, rfl⟩

/-- C9: `remaining_duration` and `remaining_cuts` sum the corresponding
sub-sampler values over the non-depleted buckets only, `num_cuts` sums
over all bucket samplers regardless of depletion, and each of the three
returns `None` (rather than raising) whenever any contributing value is
`None`. -/
theorem C9_optional_aggregates (s : BucketingSampler) :
    (none ∈ (nondepletedWithIdxs s).map (fun p => p.2.remDurAt p.2.pos) →
      remainingDuration s = none)
  ∧ (∀ vs : List Frac,
      (nondepletedWithIdxs s).map (fun p => p.2.remDurAt p.2.pos) = vs.map some →
      remainingDuration s = some vs.sum)
  ∧ (none ∈ (nondepletedWithIdxs s).map (fun p => p.2.remCutsAt p.2.pos) →
      remainingCuts s = none)
  ∧ (∀ vs : List ℕ,
      (nondepletedWithIdxs s).map (fun p => p.2.remCutsAt p.2.pos) = vs.map some →
      remainingCuts s = some vs.sum)
  ∧ (none ∈ s.samplers.map SubSampler.numCuts → numCutsBS s = none)
  ∧ (∀ vs : List ℕ, s.samplers.map SubSampler.numCuts = vs.map some →
      numCutsBS s = some vs.sum) := by
  refine ⟨?_, ?_, ?_, ?_, ?_, ?_⟩
  · intro h
    exact pySum_of_mem_none h
  · intro vs h
    unfold remainingDuration
    rw [h]
    exact pySum_map_some vs
  · intro h
    exact pySum_of_mem_none h
  · intro vs h
    unfold remainingCuts
    rw [h]
    exact pySum_map_some vs
  · intro h
    exact pySum_of_mem_none h
  · intro vs h
    unfold numCutsBS
    rw [h]
    exact pySum_map_some vs

/-- Witness for C9: on a concrete sampler the three aggregates compute
the expected sums, and a sampler over a lazy-statistics bucket reports
`None`. -/
theorem C9_witness_aggregates :
    remainingDuration wS3 = some ⟨4, 1⟩ ∧ remainingCuts wS3 = some 4 ∧
    numCutsBS wS3 = some 4 ∧ remainingDuration wS9 = none := by
  refine ⟨?_, ?_, ?_, ?_⟩
  · rw [(C9_optional_aggregates wS3).2.1 [⟨1, 1⟩, ⟨3, 1⟩] rfl]
    rfl
  · rw [(C9_optional_aggregates wS3).2.2.2.1 [2, 2] rfl]
    rfl
  · rw [(C9_optional_aggregates wS3).2.2.2.2.2 [2, 2] rfl]
    rfl
  · refine (C9_optional_aggregates wS9).1 ?_
    simp [nondepletedWithIdxs, wS9, wSubN]

/-- Helper for C10: with fuel one more than the number of non-depleted
buckets, `_next_batch` never runs out of fuel or hits an internal error:
every retry after an end-of-data signal marks a previously non-depleted
bucket depleted, so the loop stops within that bound. -/
lemma nextBatch_no_err (R : RngModel) :
    ∀ (n : ℕ) (s : BucketingSampler),
      s.depleted.length = s.samplers.length →
      (s.proportional = true → s.firstLazy = false →
        ∀ b ∈ s.samplers, ∀ q, (b.remDurAt q).isSome = true) →
      s.depleted.count false ≤ n →
      (nextBatchAux R (n + 1) s).1 ≠ NBResult.err := by
  intro n
  induction n with
  | zero =>
    intro s hwf hrd hcnt
    have hdep : isDepleted s = true := by
      unfold isDepleted
      rw [List.all_eq_true]
      intro x hx
      have hnone : (false : Bool) ∉ s.depleted :=
        List.count_eq_zero.mp (Nat.le_zero.mp hcnt)
      cases x
      · exact absurd hx hnone
      · rfl
    rw [nextBatchAux_depleted R 0 s hdep]
    simp
  | succ n ih =>
    intro s hwf hrd hcnt
    by_cases hdep : isDepleted s = true
    · rw [nextBatchAux_depleted R (n + 1) s hdep]
      simp
    · obtain ⟨p, r, hsel⟩ := select_isSome R s hwf hrd hdep
      rcases hnx : subNext p.2 with _ | ⟨b, subNew⟩
      · rw [nextBatchAux_stopIter R (n + 1) s p r hdep hsel hnx]
        have hflag := (mem_nondepleted.mp (select_mem hsel)).2
        have hwf2 : (setDepleted (setRng s r) p.1).depleted.length =
            (setDepleted (setRng s r) p.1).samplers.length := by
          simpa [setDepleted, setRng] using hwf
        have hrd2 : (setDepleted (setRng s r) p.1).proportional = true →
            (setDepleted (setRng s r) p.1).firstLazy = false →
            ∀ b2 ∈ (setDepleted (setRng s r) p.1).samplers, ∀ q,
              (b2.remDurAt q).isSome = true := by
          simpa [setDepleted, setRng] using hrd
        have hcnt2 : (setDepleted (setRng s r) p.1).depleted.count false ≤ n := by
          have hstep := count_false_set_true (l := s.depleted) (i := p.1) hflag
          show (s.depleted.set p.1 true).count false ≤ n
          omega
        exact ih _ hwf2 hrd2 hcnt2
      · rw [nextBatchAux_yield R (n + 1) s p r b subNew hdep hsel hnx]
        simp

/-- C10: every `_next_batch` request terminates: with fuel one more than
the number of currently non-depleted buckets (so at most `num_buckets`
end-of-data signals), the call either returns a batch or signals
end-of-data for the epoch — it never needs more retries.  This covers
every configuration: non-proportional sampling, lazy data (including
sub-samplers whose statistics are `None`), and proportional non-lazy
sampling; only in the last configuration, the only one whose selection
reads them, are the sub-samplers' remaining durations assumed known, as
they are for non-lazy data. -/
theorem C10_next_batch_terminates (R : RngModel) (s : BucketingSampler)
    (hwf : s.depleted.length = s.samplers.length)
    (hrd : s.proportional = true → s.firstLazy = false →
      ∀ b ∈ s.samplers, ∀ q, (b.remDurAt q).isSome = true) :
    (nextBatchAux R (s.depleted.count false + 1) s).1 ≠ NBResult.err :=
  nextBatch_no_err R _ s hwf hrd le_rfl

/-- Witness for C10: on a concrete proportional two-bucket sampler whose
first bucket is exhausted but not yet flagged, the call with the stated
fuel returns a batch (no error); and on a concrete non-proportional
sampler whose sub-samplers report no statistics at all (`None`, as for
lazy data), the call still terminates without error, signalling
end-of-data after depleting both empty buckets. -/
theorem C10_witness_termination :
    ((nextBatchAux wRng (wS4b.depleted.count false + 1) wS4b).1 ≠ NBResult.err ∧
      (nextBatchAux wRng (wS4b.depleted.count false + 1) wS4b).1 = NBResult.batch [0]) ∧
    ((nextBatchAux wRng (wS10n.depleted.count false + 1) wS10n).1 ≠ NBResult.err ∧
      (nextBatchAux wRng (wS10n.depleted.count false + 1) wS10n).1 = NBResult.stop) := by
  constructor
  · refine ⟨?_, by decide⟩
    exact C10_next_batch_terminates wRng wS4b rfl
      (by intro _ _ b hb q; simp [wS4b, wSubE, wSubA] at hb; rcases hb with rfl | rfl <;> rfl)
  · refine ⟨?_, by decide⟩
    exact C10_next_batch_terminates wRng wS10n rfl
      (by intro h; simp [wS10n] at h)

end LhotseBucketing
